import Mathlib

/-!
Verification of the `epd7in5bhd` e-paper display driver (package
`github.com/toothrot/gink/devices/epd7in5bhd`).

The development shallowly embeds the Go source:

* `image.go` — the two-plane framebuffer (`NewImage`, `Image.Set`,
  `Image.SetColorIndex`, `Image.At`, `Image.Reset`, `exactColorIndex`);
* `display.go` — the protocol layer (`Display.Upload`, `Display.Clear`);
* `hardware.go` — the transport writers (`dataWriter.Write`,
  `commandWriter.writeCommand`, `commandWriter.Write`, `batchedWriter.Write`).

Conventions:

* Go `int` is modelled as a mathematical integer with 64-bit two's-complement
  wraparound (`wrap64`) applied at the arithmetic sites that can overflow.
  Go `/` and `%` on `int` truncate toward zero, hence `Int.tdiv` / `Int.tmod`.
* Go `byte` values are `Nat`s; all writers produced by the code keep them
  below 256.
* A Go run-time panic (out-of-range slice index, negative `bytes.Repeat`
  count, `make` with negative size) is modelled as `Option.none`; an
  infinite loop is also collapsed to `none` via fuel exhaustion.
-/

namespace Gink

/-- 64-bit two's-complement wraparound of Go `int` arithmetic. -/
def wrap64 (a : Int) : Int := (a + 2 ^ 63) % 2 ^ 64 - 2 ^ 63

/-- Go conversion `uint32(x)` of an `int`: the low 32 bits. -/
def goUint32 (x : Int) : Nat := (x % 2 ^ 32).toNat

/-- `image.Rectangle` with `Min`/`Max` points flattened. -/
structure Rect where
  minX : Int
  minY : Int
  maxX : Int
  maxY : Int
deriving DecidableEq, Repr

/-- `Rectangle.Dx()`. -/
def Rect.dx (r : Rect) : Int := r.maxX - r.minX

/-- `Rectangle.Dy()`. -/
def Rect.dy (r : Rect) : Int := r.maxY - r.minY

/-- `image.Point{x, y}.In(r)`. -/
def Rect.containsB (r : Rect) (x y : Int) : Bool :=
  decide (r.minX ≤ x) && decide (x < r.maxX) && decide (r.minY ≤ y) && decide (y < r.maxY)

/-- The package's `Color` struct: `C` is 0 (white), 1 (black) or 2 (highlight). -/
structure Color where
  C : Nat
deriving DecidableEq, Repr

/-- Package variable `White`. -/
def White : Color := ⟨0⟩

/-- Package variable `Black`. -/
def Black : Color := ⟨1⟩

/-- Package variable `Highlight`. -/
def Highlight : Color := ⟨2⟩

/-- Constant `DisplayWidth = 880`. -/
def DisplayWidth : Nat := 880

/-- Constant `DisplayWidthBytes = 880 / 8`. -/
def DisplayWidthBytes : Nat := 880 / 8

/-- Constant `DisplayHeight = 528`. -/
def DisplayHeight : Nat := 528

/-- Constant `BufSize = DisplayWidthBytes * DisplayHeight`. -/
def BufSize : Nat := DisplayWidthBytes * DisplayHeight

/-- Package variable `DisplayBounds = image.Rect(0, 0, 880, 528)`. -/
def DisplayBounds : Rect := ⟨0, 0, 880, 528⟩

/-- The `Image` struct of `image.go`: two bit-packed planes plus geometry. -/
structure Image where
  Black : List Nat
  Highlight : List Nat
  Rect : Gink.Rect
  rectWidthBytes : Int
deriving DecidableEq, Repr

/-- `NewImage(r)`.  `widthByte := r.Dx()/8` rounded up, `bufSize := r.Dy()*widthByte`;
`bytes.Repeat`/`make` panic (`none`) on a negative size. -/
def newImage (r : Rect) : Option Image :=
  let widthByte : Int :=
    if Int.tmod r.dx 8 ≠ 0 then Int.tdiv r.dx 8 + 1 else Int.tdiv r.dx 8
  let bufSize : Int := wrap64 (r.dy * widthByte)
  if bufSize < 0 then none
  else some
    { Black := List.replicate bufSize.toNat 0xff
      Highlight := List.replicate bufSize.toNat 0
      Rect := r
      rectWidthBytes := widthByte }

/-- The byte index `px := (x / 8) + (y * i.rectWidthBytes)` computed by
`Image.Set` and `Image.SetColorIndex` (Go `int` arithmetic). -/
def Image.setPx (i : Image) (x y : Int) : Int :=
  wrap64 (Int.tdiv x 8 + wrap64 (y * i.rectWidthBytes))

/-- Replace byte `n` of a plane by `f` of its current value. -/
def setByte (l : List Nat) (n : Nat) (f : Nat → Nat) : List Nat :=
  l.set n (f (l.getD n 0))

/-- `Image.SetColorIndex(x, y, index)`.  Mirrors the source exactly: the only
bounds check is `px >= len(i.Black)`; a negative `px` (or a highlight plane
shorter than `px`) panics in Go on the plane writes, modelled as `none`;
an index other than 0/1/2 matches no `switch` case and writes nothing. -/
def Image.setColorIndex (i : Image) (x y : Int) (index : Nat) : Option Image :=
  let px := i.setPx x y
  if (i.Black.length : Int) ≤ px then some i
  else
    let bit : Nat := 0x80 >>> (goUint32 x % 8)
    if index < 3 then
      if 0 ≤ px ∧ px < (i.Highlight.length : Int) then
        let n := px.toNat
        if index = 0 then
          some { i with Black := setByte i.Black n (fun b => b ||| bit)
                        Highlight := setByte i.Highlight n (fun b => b &&& (bit ^^^ 0xff)) }
        else if index = 1 then
          some { i with Black := setByte i.Black n (fun b => b &&& (bit ^^^ 0xff))
                        Highlight := setByte i.Highlight n (fun b => b &&& (bit ^^^ 0xff)) }
        else
          some { i with Black := setByte i.Black n (fun b => b ||| bit)
                        Highlight := setByte i.Highlight n (fun b => b ||| bit) }
      else none
    else some i

/-- `Image.Set(x, y, c)` for a native `Color` argument: the `c.(Color)` type
assertion succeeds and the switch on `cc.C` performs exactly the writes of
`SetColorIndex`.  (The palette-conversion branch for foreign `color.Color`
values is outside the scope of the claims, which use only native colors.) -/
def Image.set (i : Image) (x y : Int) (c : Color) : Option Image :=
  i.setColorIndex x y c.C

/-- `Image.At(x, y)`.  Out-of-bounds coordinates return `White`; in-bounds
coordinates index both planes at `px := (x / 8) + y*DisplayWidthBytes`
(note the constant, not `i.rectWidthBytes`), panicking (`none`) when `px`
is outside either plane. -/
def Image.at (i : Image) (x y : Int) : Option Color :=
  if ¬ i.Rect.containsB x y then some Gink.White
  else
    let px := wrap64 (Int.tdiv x 8 + wrap64 (y * (DisplayWidthBytes : Int)))
    if 0 ≤ px ∧ px < (i.Black.length : Int) ∧ px < (i.Highlight.length : Int) then
      let n := px.toNat
      let bit : Nat := 0x80 >>> (goUint32 x % 8)
      let bbit := i.Black.getD n 0 &&& bit
      let hbit := i.Highlight.getD n 0 &&& bit
      if hbit ≥ 1 then some Gink.Highlight
      else if bbit ≥ 1 then some Gink.White
      else some Gink.Black
    else none

/-- `Image.Reset()`: black plane all `0xff`, highlight plane all `0x00`,
lengths unchanged. -/
def Image.reset (i : Image) : Image :=
  { i with Black := List.replicate i.Black.length 0xff
           Highlight := List.replicate i.Highlight.length 0 }

/-! ## Hardware layer (`hardware.go`)

GPIO pin writes and the mutex are modelled as an event trace; the SPI
connection `conn.Conn.Tx` is a recording transport whose `k`-th call can be
scheduled to fail.  Pin writes themselves never fail in this model (the
claims under verification exercise only transport failures). -/

/-- Bus events: mutex acquisition/release, data/command and chip-select pin
writes (`true` = high), and one `conn.Tx` transfer. -/
inductive Ev where
  | lock
  | unlock
  | dcOut (high : Bool)
  | csOut (high : Bool)
  | tx (bytes : List Nat)
deriving DecidableEq, Repr

/-- Abstract Go errors surfaced by the writers. -/
inductive GoErr where
  | shortWrite
  | txErr
deriving DecidableEq, Repr

/-- The `hardware` struct together with the observable history: `txLimit`
is the transfer limit, `txFailures.getD k true` says whether the `k`-th
`Tx` call succeeds, `txCount` counts `Tx` calls, `events` is the trace. -/
structure HW where
  txLimit : Int
  txFailures : List Bool
  txCount : Nat
  events : List Ev
deriving DecidableEq, Repr

/-- Whether the `k`-th transport transfer succeeds (default: success). -/
def HW.txOkAt (h : HW) (k : Nat) : Bool := h.txFailures.getD k true

/-- One `conn.Tx` call: record the transfer, report scheduled success/failure. -/
def HW.doTx (h : HW) (p : List Nat) : HW × Bool :=
  ({ h with txCount := h.txCount + 1, events := h.events ++ [Ev.tx p] }, h.txOkAt h.txCount)

/-- The transfers present in a trace, in order. -/
def HW.txs (h : HW) : List (List Nat) :=
  h.events.filterMap fun e => match e with | Ev.tx b => some b | _ => none

/-- Number of mutex acquisitions in a trace. -/
def lockCount (evs : List Ev) : Nat := (evs.filter (fun e => e = Ev.lock)).length

/-- `dataWriter.Write(p)`: lock, assert CS low and DC high, transmit at most
`txLimit` bytes, restore CS high and unlock on every exit path.  Returns the
byte count and error exactly as the source does (`io.ErrShortWrite` for a
clipped write or a non-positive limit). -/
def dataWriterWrite (h : HW) (p : List Nat) : HW × Nat × Option GoErr :=
  let h1 := { h with events := h.events ++ [Ev.lock] }
  if p.length = 0 then
    ({ h1 with events := h1.events ++ [Ev.unlock] }, 0, none)
  else
    let h2 := { h1 with events := h1.events ++ [Ev.csOut false, Ev.dcOut true] }
    if h2.txLimit ≤ 0 then
      ({ h2 with events := h2.events ++ [Ev.csOut true, Ev.unlock] }, 0, some GoErr.shortWrite)
    else if h2.txLimit < (p.length : Int) then
      let r := h2.doTx (p.take h2.txLimit.toNat)
      let h3 := { r.1 with events := r.1.events ++ [Ev.csOut true, Ev.unlock] }
      if r.2 then (h3, h2.txLimit.toNat, some GoErr.shortWrite)
      else (h3, h2.txLimit.toNat, some GoErr.txErr)
    else
      let r := h2.doTx p
      let h3 := { r.1 with events := r.1.events ++ [Ev.csOut true, Ev.unlock] }
      if r.2 then (h3, p.length, none)
      else (h3, p.length, some GoErr.txErr)

/-- `commandWriter.writeCommand(p)`: lock, DC low, CS low, transmit the one
opcode byte, restore CS high and unlock. -/
def writeCommand (h : HW) (p : Nat) : HW × Option GoErr :=
  let h1 := { h with events := h.events ++ [Ev.lock, Ev.dcOut false, Ev.csOut false] }
  let r := h1.doTx [p]
  let h2 := { r.1 with events := r.1.events ++ [Ev.csOut true, Ev.unlock] }
  (h2, if r.2 then none else some GoErr.txErr)

/-- The loop of `batchedWriter.Write` (with `dst` the data writer, as built by
`hardware.DataWriter`).  `fuel` bounds the iterations; it runs out only when
`batchSize ≤ 0`, where the Go loop never terminates (`batchSize = 0`) or
panics on a reversed slice (`batchSize < 0`) — both are `none` here.

Note the source's loop body ends in `n += sent`, a write to the dead local
`n`; the accumulator `sent` is never updated, so the success branch recurses
with `sent` unchanged and the final return value is the initial `sent`. -/
def batchedWriteAux (batchSize : Int) (p : List Nat) :
    Nat → HW → Nat → Nat → Option (HW × Nat × Option GoErr)
  | 0, _, _, _ => none
  | fuel + 1, h, i, sent =>
    if i < p.length then
      let j := min (i + batchSize.toNat) p.length
      match dataWriterWrite h ((p.drop i).take (j - i)) with
      | (h1, n, some err) => some (h1, n + sent, some err)
      | (h1, _n, none) => batchedWriteAux batchSize p fuel h1 (i + batchSize.toNat) sent
    else some (h, sent, none)

/-- `batchedWriter.Write(p)` for the writer returned by `DataWriter()`
(`batchSize = txLimit`, destination the data writer). -/
def batchedWrite (h : HW) (p : List Nat) : Option (HW × Nat × Option GoErr) :=
  batchedWriteAux h.txLimit p (p.length + 1) h 0 0

/-- `commandWriter.Write(p)`: first byte is the opcode (sent via
`writeCommand`), the rest is forwarded through the batched data path. -/
def commandWrite (h : HW) (p : List Nat) : Option (HW × Nat × Option GoErr) :=
  match p with
  | [] => some (h, 0, none)
  | cmd :: data =>
    match writeCommand h cmd with
    | (h1, some err) => some (h1, 1, some err)
    | (h1, none) =>
      if data.length = 0 then some (h1, 1, none)
      else
        match batchedWrite h1 data with
        | none => none
        | some (h2, n, e2) => some (h2, 1 + n, e2)

/-! ## Display protocol (`display.go`) -/

/-- Opcode `setRamYAddressCtr = 0x4F`. -/
def setRamYAddressCtr : Nat := 0x4F

/-- Opcode `writeRAMBW = 0x24`. -/
def writeRAMBW : Nat := 0x24

/-- Opcode `writeRAMRed = 0x26`. -/
def writeRAMRed : Nat := 0x26

/-- Opcode `displayUpdateControl2 = 0x22`. -/
def displayUpdateControl2 : Nat := 0x22

/-- Opcode `masterActivation = 0x20`. -/
def masterActivation : Nat := 0x20

/-- A logical command: opcode plus payload, as passed to `sendCommand`. -/
structure Cmd where
  opcode : Nat
  payload : List Nat
deriving DecidableEq, Repr

/-- `Display.Upload(blackImg, redImg)` viewed as the sequence of logical
commands it issues (`sendCommand` never stops on transfer errors, so the
sequence is unconditional).  `bytes.Repeat` panics (`none`) when a pad count
`BufSize - len(img)` is negative.  The trailing two commands come from
`turnOnDisplay`. -/
def Display.upload (blackImg redImg : List Nat) : Option (List Cmd) :=
  if (BufSize : Int) - blackImg.length < 0 then none
  else if (BufSize : Int) - redImg.length < 0 then none
  else
    some [⟨setRamYAddressCtr, [0xAF, 0x02]⟩,
          ⟨writeRAMBW, blackImg ++ List.replicate (BufSize - blackImg.length) 0xFF⟩,
          ⟨writeRAMRed, redImg ++ List.replicate (BufSize - redImg.length) 0x00⟩,
          ⟨displayUpdateControl2, [0xC7]⟩,
          ⟨masterActivation, []⟩]

/-! ## Palette encoder (`exactColorIndex` of `image.go`)

Colors are represented by the 16-bit-per-channel alpha-premultiplied values
that Go's `color.Color.RGBA()` returns — `color.Palette.Index` consults
nothing else.  `sqDiff` and `Index` are transcribed from Go's
`image/color/color.go` (uint32 arithmetic wraps at `2^32`). -/

/-- An RGBA quadruple as returned by Go's `color.Color.RGBA()`
(each channel in `0 .. 0xffff`). -/
structure RGBA where
  r : Nat
  g : Nat
  b : Nat
  a : Nat
deriving DecidableEq, Repr, Inhabited

/-- `sqDiff(x, y uint32) uint32 { d := x - y; return (d * d) >> 2 }`
with uint32 wraparound made explicit. -/
def sqDiff (x y : Nat) : Nat :=
  let d := (x % 2 ^ 32 + 2 ^ 32 - y % 2 ^ 32) % 2 ^ 32
  (d * d % 2 ^ 32) >>> 2

/-- The squared-distance accumulator of `color.Palette.Index`:
sum of the four channel `sqDiff`s in uint32 arithmetic. -/
def colorSum (c v : RGBA) : Nat :=
  (sqDiff c.r v.r + sqDiff c.g v.g + sqDiff c.b v.b + sqDiff c.a v.a) % 2 ^ 32

/-- The loop of `color.Palette.Index`: track the best index `ret` and best
sum so far, return early on an exact match. -/
def paletteIndexAux (c : RGBA) : List RGBA → Nat → Nat → Nat → Nat
  | [], _, ret, _ => ret
  | v :: rest, i, ret, best =>
    let sum := colorSum c v
    if sum < best then
      if sum = 0 then i else paletteIndexAux c rest (i + 1) i sum
    else paletteIndexAux c rest (i + 1) ret best

/-- `color.Palette.Index(c)`: index of the entry nearest to `c`
(first wins on ties), starting from `ret, bestSum := 0, 1<<32-1`. -/
def paletteIndex (p : List RGBA) (c : RGBA) : Nat :=
  paletteIndexAux c p 0 0 (2 ^ 32 - 1)

/-- `color.White.RGBA()`. -/
def goWhite : RGBA := ⟨0xffff, 0xffff, 0xffff, 0xffff⟩

/-- `color.Black.RGBA()`. -/
def goBlack : RGBA := ⟨0, 0, 0, 0xffff⟩

/-- `color.RGBA{255, 0, 0, 255}.RGBA()`. -/
def goRed : RGBA := ⟨0xffff, 0, 0, 0xffff⟩

/-- `exactColorIndex(src)` unrolled over the fixed role order
`[color.White, color.Black, color.RGBA{255,0,0,255}]`: pick the nearest
remaining palette entry for each role, removing it (`append(ip[:ci],
ip[ci+1:]...)` = `eraseIdx`) before the next role, then map each chosen
entry back to its index in the original palette via `Palette.Index`. -/
def exactColorIndex (srcPalette : List RGBA) : Nat × Nat × Nat :=
  let ci0 := paletteIndex srcPalette goWhite
  let p0 := srcPalette.getD ci0 default
  let ip1 := srcPalette.eraseIdx ci0
  let ci1 := paletteIndex ip1 goBlack
  let p1 := ip1.getD ci1 default
  let ip2 := ip1.eraseIdx ci1
  let ci2 := paletteIndex ip2 goRed
  let p2 := ip2.getD ci2 default
  (paletteIndex srcPalette p0, paletteIndex srcPalette p1, paletteIndex srcPalette p2)

/-- Modelled from the spec (§4.3): the exact-palette fast path "assigns
physical roles by iterative nearest-match removal: for each of [White,
Black, Highlight] in that fixed priority order, find the closest remaining
palette entry (by an RGB distance metric), bind it to that role, and remove
it from the candidate set before processing the next role."  Here the
candidate set is tracked as a list of original palette indices, so removal
is by index, and each role yields the original index it bound to. -/
def specNearestRemovalAssign (pal : List RGBA) : Nat × Nat × Nat :=
  let pick := fun (idxs : List Nat) (c : RGBA) =>
    idxs.getD (paletteIndex (idxs.map fun k => pal.getD k default) c) 0
  let i0 := pick (List.range pal.length) goWhite
  let rest1 := (List.range pal.length).erase i0
  let i1 := pick rest1 goBlack
  let rest2 := rest1.erase i1
  let i2 := pick rest2 goRed
  (i0, i1, i2)

/-! ## Operation sequences on the framebuffer (for the plane invariant) -/

/-- One framebuffer mutation: `Set` (native color), `SetColorIndex`, or
`Reset`. -/
inductive Op where
  | set (x y : Int) (c : Color)
  | setColorIndex (x y : Int) (index : Nat)
  | reset
deriving DecidableEq, Repr

/-- Apply one operation (`none` = the operation panics in Go). -/
def applyOp (i : Image) : Op → Option Image
  | .set x y c => i.set x y c
  | .setColorIndex x y index => i.setColorIndex x y index
  | .reset => some i.reset

/-- Run a sequence of operations left to right. -/
def runOps (i : Image) : List Op → Option Image
  | [] => some i
  | op :: rest => (applyOp i op).bind fun j => runOps j rest

/-- The plane invariant maintained by every internal writer: both planes have
the same length, every byte is a byte (`< 256`), and at every bit position a
set highlight bit implies a set black bit — i.e. the pair
(blackBit, highlightBit) = (0,1) never occurs. -/
def PlanesInv (i : Image) : Prop :=
  i.Black.length = i.Highlight.length ∧
  (∀ n < i.Black.length, i.Black.getD n 0 < 256 ∧ i.Highlight.getD n 0 < 256) ∧
  (∀ n < i.Black.length, ∀ t < 8,
    (i.Highlight.getD n 0).testBit t = true → (i.Black.getD n 0).testBit t = true)

/-- The event block of one `dataWriter.Write` call that transmits `c`. -/
def dataBlock (c : List Nat) : List Ev :=
  [Ev.lock, Ev.csOut false, Ev.dcOut true, Ev.tx c, Ev.csOut true, Ev.unlock]

/-- The event block of one `commandWriter.writeCommand` call for opcode `c`. -/
def cmdBlock (c : Nat) : List Ev :=
  [Ev.lock, Ev.dcOut false, Ev.csOut false, Ev.tx [c], Ev.csOut true, Ev.unlock]

/-! ## Claim C2 — bit-packing exactness on a 16×2 buffer -/

/-- Claim C2: on a freshly created 16×2 framebuffer, setting pixel (0,0) to
Black and pixel (7,0) to Highlight yields `blackPlane[0] = 0b0111_1111` and
`highlightPlane[0] = 0b0000_0001`; continuing with the symmetric operations
at the next byte boundary — (8,0) to Black and (15,0) to Highlight — yields
the same two byte values at byte index 1. -/
theorem claim_C2 :
    ((((newImage ⟨0, 0, 16, 2⟩).bind fun i => i.set 0 0 Gink.Black).bind fun i =>
        i.set 7 0 Gink.Highlight).map fun i => (i.Black.getD 0 0, i.Highlight.getD 0 0)) =
      some (0b01111111, 0b00000001) ∧
    ((((((newImage ⟨0, 0, 16, 2⟩).bind fun i => i.set 0 0 Gink.Black).bind fun i =>
        i.set 7 0 Gink.Highlight).bind fun i => i.set 8 0 Gink.Black).bind fun i =>
        i.set 15 0 Gink.Highlight).map fun i => (i.Black.getD 1 0, i.Highlight.getD 1 0)) =
      some (0b01111111, 0b00000001) := by
  constructor <;> decide

/-! ## Claim C9 — `Reset`/`Clear` is idempotent -/

/-- Claim C9: the framebuffer reset is idempotent — applying it twice yields
plane contents identical to applying it once, namely an all-`0xFF` black
plane and an all-`0x00` highlight plane, with plane lengths unchanged. -/
theorem claim_C9 (i : Image) :
    i.reset.reset = i.reset ∧
    i.reset.Black = List.replicate i.Black.length 0xff ∧
    i.reset.Highlight = List.replicate i.Highlight.length 0x00 ∧
    i.reset.Black.length = i.Black.length ∧
    i.reset.Highlight.length = i.Highlight.length := by
  refine ⟨?_, by simp [Image.reset], by simp [Image.reset], by simp [Image.reset],
    by simp [Image.reset]⟩
  simp [Image.reset]

/-! ## Claim C10 — `Upload` panics exactly on oversized buffers -/

/-- Claim C10: `Upload` runs without a panic precisely when both supplied
plane buffers are at most `BufSize` bytes long; a strictly longer buffer
makes the padding count `BufSize - len` negative and `bytes.Repeat`
panics. -/
theorem claim_C10 (blackImg redImg : List Nat) :
    (Display.upload blackImg redImg).isSome ↔
      blackImg.length ≤ BufSize ∧ redImg.length ≤ BufSize := by
  unfold Display.upload
  split_ifs with h1 h2 <;> simp <;> omega

/-! ## Claim C3 — upload payloads are exactly `BufSize` bytes, padded -/

/-- Claim C3: for buffers of length at most `BufSize`, `Upload` issues the
write-black/white-RAM opcode with payload `blackImg` padded to `BufSize`
with `0xFF` (white) bytes, and the write-red/highlight-RAM opcode with
payload `redImg` padded to `BufSize` with `0x00` (not-highlighted) bytes;
both payloads are exactly `BufSize` bytes. -/
theorem claim_C3 (blackImg redImg : List Nat)
    (hb : blackImg.length ≤ BufSize) (hr : redImg.length ≤ BufSize) :
    Display.upload blackImg redImg =
      some [⟨setRamYAddressCtr, [0xAF, 0x02]⟩,
            ⟨writeRAMBW, blackImg ++ List.replicate (BufSize - blackImg.length) 0xFF⟩,
            ⟨writeRAMRed, redImg ++ List.replicate (BufSize - redImg.length) 0x00⟩,
            ⟨displayUpdateControl2, [0xC7]⟩,
            ⟨masterActivation, []⟩] ∧
    (blackImg ++ List.replicate (BufSize - blackImg.length) 0xFF).length = BufSize ∧
    (redImg ++ List.replicate (BufSize - redImg.length) 0x00).length = BufSize := by
  refine ⟨?_, by simp; omega, by simp; omega⟩
  unfold Display.upload
  rw [if_neg (by omega), if_neg (by omega)]

/-- Witness for C3 at the concrete buffers `[0x12]` and `[]`. -/
theorem claim_C3_witness :
    ([0x12] : List Nat).length ≤ BufSize ∧ ([] : List Nat).length ≤ BufSize ∧
    Display.upload [0x12] [] =
      some [⟨setRamYAddressCtr, [0xAF, 0x02]⟩,
            ⟨writeRAMBW, [0x12] ++ List.replicate (BufSize - ([0x12] : List Nat).length) 0xFF⟩,
            ⟨writeRAMRed, [] ++ List.replicate (BufSize - ([] : List Nat).length) 0x00⟩,
            ⟨displayUpdateControl2, [0xC7]⟩,
            ⟨masterActivation, []⟩] :=
  ⟨by decide, by decide, (claim_C3 [0x12] [] (by decide) (by decide)).1⟩

/-! ## Claim C1 — `Set`/`At` round trip and the out-of-bounds behavior -/

/-- Counterexample to claim C1 as stated, on the 16×2 framebuffer
`NewImage(image.Rect(0,0,16,2))`:

* `Set(16, 0, Black)` — the coordinate (16,0) is outside the configured
  bounds, yet the call is not a no-op: it flips byte 2 of the black plane
  from `0xff` to `0x7f`;
* `Set(0, 1, Black)` — the coordinate (0,1) is inside the configured
  bounds, yet `At(0, 1)` after it does not return Black: `At` computes its
  byte index with the constant `DisplayWidthBytes`, reads index 110 of a
  4-byte plane, and panics (`none`). -/
theorem claim_C1_counterexample :
    (((newImage ⟨0, 0, 16, 2⟩).bind fun i => i.set 16 0 Gink.Black).map Image.Black =
        some [0xff, 0xff, 0x7f, 0xff] ∧
      (newImage ⟨0, 0, 16, 2⟩).map Image.Black = some [0xff, 0xff, 0xff, 0xff]) ∧
    (((newImage ⟨0, 0, 16, 2⟩).bind fun i => i.set 0 1 Gink.Black).bind fun i => i.at 0 1) =
      none := by
  refine ⟨⟨?_, ?_⟩, ?_⟩ <;> decide

/-! ## Arithmetic and bit-level helper lemmas -/

lemma wrap64_eq_self (a : Int) (h1 : -(2 ^ 63) ≤ a) (h2 : a < 2 ^ 63) : wrap64 a = a := by
  unfold wrap64; omega

lemma goUint32_small (x : Int) (h0 : 0 ≤ x) (h : x < 2 ^ 32) : goUint32 x = x.toNat := by
  unfold goUint32; omega

lemma tdiv_cast (m : Nat) : Int.tdiv (m : Int) 8 = ((m / 8 : Nat) : Int) := rfl

lemma bit_lt_256 (k : Nat) : 128 >>> k < 256 := by
  have h : 128 >>> k ≤ 128 := by
    rw [Nat.shiftRight_eq_div_pow]
    exact Nat.div_le_self _ _
  omega

lemma bit_testBit_self (k : Nat) (hk : k < 8) : (128 >>> k).testBit (7 - k) = true := by
  interval_cases k <;> decide

lemma or_bit_read (b bit t : Nat) (hbit : bit.testBit t = true) : (b ||| bit) &&& bit ≠ 0 := by
  intro h0
  have h1 : ((b ||| bit) &&& bit).testBit t = true := by
    simp [Nat.testBit_land, Nat.testBit_lor, hbit]
  rw [h0] at h1
  simp [Nat.zero_testBit] at h1

lemma testBit_high_false (bit i : Nat) (hb : bit < 256) (hi : 8 ≤ i) : bit.testBit i = false := by
  apply Nat.testBit_eq_false_of_lt
  have : (256 : Nat) ≤ 2 ^ i := by
    calc (256 : Nat) = 2 ^ 8 := by norm_num
    _ ≤ 2 ^ i := Nat.pow_le_pow_right (by norm_num) hi
  omega

lemma mask_bit_read (b bit : Nat) (hb : bit < 256) : (b &&& (bit ^^^ 255)) &&& bit = 0 := by
  apply Nat.eq_of_testBit_eq
  intro i
  simp only [Nat.testBit_land, Nat.testBit_xor, Nat.zero_testBit]
  rcases hbi : bit.testBit i with _ | _
  · simp
  · have hi : i < 8 := by
      by_contra hge
      rw [testBit_high_false bit i hb (by omega)] at hbi
      exact Bool.noConfusion hbi
    have h255 : Nat.testBit 255 i = true := by interval_cases i <;> decide
    simp [h255]

lemma length_setByte (l : List Nat) (n : Nat) (f : Nat → Nat) :
    (setByte l n f).length = l.length := by
  simp [setByte]

lemma getD_setByte_self (l : List Nat) (n : Nat) (f : Nat → Nat) (h : n < l.length) :
    (setByte l n f).getD n 0 = f (l.getD n 0) := by
  simp [setByte, List.getD, List.getElem?_set_self, h]

lemma toNat_natCast (n : Nat) : ((n : Int)).toNat = n := by omega

lemma wrap_mul110 (k : Nat) (hk : k < 528) :
    wrap64 ((k : Int) * (DisplayWidthBytes : Int)) = ((k * 110 : Nat) : Int) := by
  have h1 : ((k : Int) * (DisplayWidthBytes : Int)) = ((k * 110 : Nat) : Int) := by
    push_cast [DisplayWidthBytes]
    ring
  rw [h1]
  have h2 : k * 110 ≤ 57970 := by omega
  apply wrap64_eq_self <;> omega

lemma px_eval (i : Image) (m k : Nat) (hm : m < 880) (hk : k < 528)
    (hw : i.rectWidthBytes = (DisplayWidthBytes : Int)) :
    i.setPx (m : Int) (k : Int) = ((m / 8 + k * 110 : Nat) : Int) := by
  rw [Image.setPx, hw, tdiv_cast, wrap_mul110 k hk]
  have h2 : m / 8 + k * 110 ≤ 109 + 57970 := by omega
  rw [show (((m / 8 : Nat) : Int) + ((k * 110 : Nat) : Int)) = ((m / 8 + k * 110 : Nat) : Int) by
    push_cast; ring]
  apply wrap64_eq_self <;> omega

lemma at_eval (i : Image) (m k : Nat) (hm : m < 880) (hk : k < 528)
    (hrect : i.Rect = DisplayBounds)
    (hlb : i.Black.length = BufSize) (hlh : i.Highlight.length = BufSize) :
    i.at (m : Int) (k : Int) =
      (if i.Highlight.getD (m / 8 + k * 110) 0 &&& (128 >>> (m % 8)) ≥ 1 then some Gink.Highlight
       else if i.Black.getD (m / 8 + k * 110) 0 &&& (128 >>> (m % 8)) ≥ 1 then some Gink.White
       else some Gink.Black) := by
  have hB : BufSize = 58080 := rfl
  have hcont : i.Rect.containsB (m : Int) (k : Int) = true := by
    rw [hrect]
    simp only [DisplayBounds, Rect.containsB, Bool.and_eq_true, decide_eq_true_eq]
    omega
  have hN : m / 8 + k * 110 < BufSize := by omega
  rw [Image.at]
  rw [if_neg (by simp [hcont])]
  have hpx2 : wrap64 (Int.tdiv (m : Int) 8 + wrap64 ((k : Int) * (DisplayWidthBytes : Int))) =
      ((m / 8 + k * 110 : Nat) : Int) := by
    rw [tdiv_cast, wrap_mul110 k hk]
    rw [show (((m / 8 : Nat) : Int) + ((k * 110 : Nat) : Int)) = ((m / 8 + k * 110 : Nat) : Int) by
      push_cast; ring]
    apply wrap64_eq_self <;> omega
  simp only [hpx2]
  rw [if_pos (by refine ⟨Int.natCast_nonneg _, ?_, ?_⟩ <;> push_cast <;> omega)]
  have hg : goUint32 (m : Int) = m := by
    rw [goUint32_small _ (Int.natCast_nonneg _) (by push_cast; omega), toNat_natCast]
  simp only [toNat_natCast, hg]

/-- Claim C1 (amended): on a framebuffer whose configured bounds are the full
display rectangle (0,0)–(880,528) — in particular `rectWidthBytes =
DisplayWidthBytes` and both planes `BufSize` bytes — `Set(x,y,c)` followed by
`At(x,y)` returns `c` for every in-bounds coordinate and every native color
`c ∈ {White, Black, Highlight}`.  `Set` is a no-op exactly when the computed
byte index `x/8 + y*rectWidthBytes` is at least the black plane's length;
out-of-bounds coordinates whose byte index still lands inside the plane do
modify it (see the counterexample). -/
theorem claim_C1 :
    (∀ (i : Image) (x y : Int) (c : Color),
      i.Rect = DisplayBounds → i.rectWidthBytes = (DisplayWidthBytes : Int) →
      i.Black.length = BufSize → i.Highlight.length = BufSize →
      0 ≤ x → x < 880 → 0 ≤ y → y < 528 →
      (c = Gink.White ∨ c = Gink.Black ∨ c = Gink.Highlight) →
      (i.set x y c).bind (fun j => j.at x y) = some c) ∧
    (∀ (i : Image) (x y : Int) (c : Color),
      (i.Black.length : Int) ≤ i.setPx x y → i.set x y c = some i) := by
  constructor
  · intro i x y c hrect hw hlb hlh hx0 hx1 hy0 hy1 hc
    obtain ⟨m, rfl⟩ : ∃ m : Nat, (m : Int) = x := ⟨x.toNat, Int.toNat_of_nonneg hx0⟩
    obtain ⟨k, rfl⟩ : ∃ k : Nat, (k : Int) = y := ⟨y.toNat, Int.toNat_of_nonneg hy0⟩
    have hm : m < 880 := by exact_mod_cast hx1
    have hk : k < 528 := by exact_mod_cast hy1
    have hB : BufSize = 58080 := rfl
    have hNlt : m / 8 + k * 110 < BufSize := by omega
    have hg : goUint32 (m : Int) = m := by
      rw [goUint32_small _ (Int.natCast_nonneg _) (by push_cast; omega), toNat_natCast]
    have hbit256 : 128 >>> (m % 8) < 256 := bit_lt_256 _
    have hbitt : (128 >>> (m % 8)).testBit (7 - m % 8) = true :=
      bit_testBit_self _ (Nat.mod_lt _ (by norm_num))
    have hsetup : ∀ fb fh : Nat → Nat,
        (some { i with Black := setByte i.Black ((((m / 8 + k * 110 : Nat) : Int)).toNat) fb
                       Highlight := setByte i.Highlight ((((m / 8 + k * 110 : Nat) : Int)).toNat) fh }).bind
            (fun j => j.at (m : Int) (k : Int)) =
          (if (setByte i.Highlight (m / 8 + k * 110) fh).getD (m / 8 + k * 110) 0 &&&
                (128 >>> (m % 8)) ≥ 1 then some Gink.Highlight
           else if (setByte i.Black (m / 8 + k * 110) fb).getD (m / 8 + k * 110) 0 &&&
                (128 >>> (m % 8)) ≥ 1 then some Gink.White
           else some Gink.Black) := by
      intro fb fh
      rw [Option.some_bind]
      rw [at_eval _ m k hm hk (by simp [hrect]) (by simp [length_setByte, hlb])
        (by simp [length_setByte, hlh])]
      simp only [toNat_natCast]
    rcases hc with rfl | rfl | rfl
    · rw [Image.set, Image.setColorIndex]
      simp only [px_eval i m k hm hk hw, hg]
      rw [if_neg (by push_cast; omega)]
      rw [if_pos (by decide)]
      rw [if_pos (by refine ⟨Int.natCast_nonneg _, ?_⟩; push_cast; omega)]
      rw [if_pos (by decide)]
      rw [hsetup]
      rw [getD_setByte_self _ _ _ (by rw [hlh]; omega),
        getD_setByte_self _ _ _ (by rw [hlb]; omega)]
      rw [if_neg (by rw [mask_bit_read _ _ hbit256]; omega)]
      rw [if_pos (Nat.one_le_iff_ne_zero.mpr (or_bit_read _ _ _ hbitt))]
    · rw [Image.set, Image.setColorIndex]
      simp only [px_eval i m k hm hk hw, hg]
      rw [if_neg (by push_cast; omega)]
      rw [if_pos (by decide)]
      rw [if_pos (by refine ⟨Int.natCast_nonneg _, ?_⟩; push_cast; omega)]
      rw [if_neg (by decide), if_pos (by decide)]
      rw [hsetup]
      rw [getD_setByte_self _ _ _ (by rw [hlh]; omega),
        getD_setByte_self _ _ _ (by rw [hlb]; omega)]
      rw [if_neg (by rw [mask_bit_read _ _ hbit256]; omega)]
      rw [if_neg (by rw [mask_bit_read _ _ hbit256]; omega)]
    · rw [Image.set, Image.setColorIndex]
      simp only [px_eval i m k hm hk hw, hg]
      rw [if_neg (by push_cast; omega)]
      rw [if_pos (by decide)]
      rw [if_pos (by refine ⟨Int.natCast_nonneg _, ?_⟩; push_cast; omega)]
      rw [if_neg (by decide), if_neg (by decide)]
      rw [hsetup]
      rw [getD_setByte_self _ _ _ (by rw [hlh]; omega)]
      rw [if_pos (Nat.one_le_iff_ne_zero.mpr (or_bit_read _ _ _ hbitt))]
  · intro i x y c h
    rw [Image.set, Image.setColorIndex]
    simp only []
    rw [if_pos h]

/-- Witness for C1 on the panel-size framebuffer: the round trip at (3,5)
with Black, and the no-op at the out-of-range coordinate (0,528). -/
theorem claim_C1_witness :
    (0 : Int) ≤ 3 ∧ (3 : Int) < 880 ∧ (0 : Int) ≤ 5 ∧ (5 : Int) < 528 ∧
    ((Image.mk (List.replicate BufSize 0xff) (List.replicate BufSize 0) DisplayBounds 110).set
        3 5 Gink.Black).bind (fun j => j.at 3 5) = some Gink.Black ∧
    (Image.mk (List.replicate BufSize 0xff) (List.replicate BufSize 0) DisplayBounds 110).set
        0 528 Gink.Black =
      some (Image.mk (List.replicate BufSize 0xff) (List.replicate BufSize 0) DisplayBounds 110) :=
  ⟨by decide, by decide, by decide, by decide,
    claim_C1.1 _ 3 5 Gink.Black rfl (by decide) (by simp) (by simp)
      (by decide) (by decide) (by decide) (by decide) (Or.inr (Or.inl rfl)),
    claim_C1.2 _ 0 528 Gink.Black
      (by simp only [List.length_replicate]; decide)⟩


/-! ## Claim C7 — the plane invariant -/

lemma getD_setByte_ne (l : List Nat) (n m : Nat) (f : Nat → Nat) (h : n ≠ m) :
    (setByte l n f).getD m 0 = l.getD m 0 := by
  simp [setByte, List.getD, List.getElem?_set_ne h]

lemma getD_replicate (c len n : Nat) (h : n < len) :
    (List.replicate len c).getD n 0 = c := by
  simp [List.getD, List.getElem?_replicate, h]

lemma or_lt_256 (a b : Nat) (ha : a < 256) (hb : b < 256) : a ||| b < 256 := by
  have h := Nat.or_lt_two_pow (show a < 2 ^ 8 by omega) (show b < 2 ^ 8 by omega)
  omega

lemma inv_replicate (len : Nat) (r : Rect) (w : Int) :
    PlanesInv ⟨List.replicate len 0xff, List.replicate len 0, r, w⟩ := by
  refine ⟨by simp, ?_, ?_⟩
  · intro n hn
    simp only [List.length_replicate] at hn
    rw [getD_replicate _ _ _ hn, getD_replicate _ _ _ hn]
    omega
  · intro n hn t ht hbit
    simp only [List.length_replicate] at hn
    rw [getD_replicate _ _ _ hn] at hbit
    simp [Nat.zero_testBit] at hbit

lemma inv_newImage (r : Rect) (i : Image) (h : newImage r = some i) : PlanesInv i := by
  rw [newImage] at h
  split_ifs at h
  all_goals
    injection h with h
    subst h
    exact inv_replicate _ r _

lemma PlanesInv_setByte (i : Image) (n : Nat) (fb fh : Nat → Nat)
    (hinv : PlanesInv i) (hn : n < i.Black.length)
    (hfb : ∀ b, b < 256 → fb b < 256)
    (hfh : ∀ b, b < 256 → fh b < 256)
    (hstep : ∀ b h t, t < 8 → (h.testBit t = true → b.testBit t = true) →
      ((fh h).testBit t = true → (fb b).testBit t = true)) :
    PlanesInv { i with Black := setByte i.Black n fb, Highlight := setByte i.Highlight n fh } := by
  obtain ⟨hlen, hb, hp⟩ := hinv
  have hnh : n < i.Highlight.length := hlen ▸ hn
  refine ⟨by simp [length_setByte, hlen], ?_, ?_⟩
  · intro m hm
    simp only [length_setByte] at hm ⊢
    by_cases hmn : n = m
    · subst hmn
      rw [getD_setByte_self _ _ _ hn, getD_setByte_self _ _ _ hnh]
      exact ⟨hfb _ (hb n hm).1, hfh _ (hb n hm).2⟩
    · rw [getD_setByte_ne _ _ _ _ hmn, getD_setByte_ne _ _ _ _ hmn]
      exact hb m hm
  · intro m hm t ht
    simp only [length_setByte] at hm ⊢
    by_cases hmn : n = m
    · subst hmn
      rw [getD_setByte_self _ _ _ hn, getD_setByte_self _ _ _ hnh]
      exact hstep _ _ t ht (hp n hm t ht)
    · rw [getD_setByte_ne _ _ _ _ hmn, getD_setByte_ne _ _ _ _ hmn]
      exact hp m hm t ht

lemma inv_setColorIndex (i : Image) (x y : Int) (index : Nat) (j : Image)
    (hinv : PlanesInv i) (h : i.setColorIndex x y index = some j) : PlanesInv j := by
  rw [Image.setColorIndex] at h
  by_cases h1 : (i.Black.length : Int) ≤ i.setPx x y
  · rw [if_pos h1] at h
    injection h with h
    subst h
    exact hinv
  · rw [if_neg h1] at h
    by_cases h2 : index < 3
    · rw [if_pos h2] at h
      by_cases h3 : 0 ≤ i.setPx x y ∧ i.setPx x y < (i.Highlight.length : Int)
      · rw [if_pos h3] at h
        have hbit256 : 0x80 >>> (goUint32 x % 8) < 256 := bit_lt_256 _
        have hn : (i.setPx x y).toNat < i.Black.length := by omega
        by_cases h4 : index = 0
        · rw [if_pos h4] at h
          injection h with h
          subst h
          refine PlanesInv_setByte i _ _ _ hinv hn ?_ ?_ ?_
          · exact fun b hb => or_lt_256 b _ hb hbit256
          · intro b hb
            have := Nat.and_le_left (n := b) (m := 0x80 >>> (goUint32 x % 8) ^^^ 0xff)
            omega
          · intro b hh t ht himp
            simp only [Nat.testBit_land, Nat.testBit_lor, Bool.and_eq_true, Bool.or_eq_true]
            rintro ⟨hht, -⟩
            exact Or.inl (himp hht)
        · rw [if_neg h4] at h
          by_cases h5 : index = 1
          · rw [if_pos h5] at h
            injection h with h
            subst h
            refine PlanesInv_setByte i _ _ _ hinv hn ?_ ?_ ?_
            · intro b hb
              have := Nat.and_le_left (n := b) (m := 0x80 >>> (goUint32 x % 8) ^^^ 0xff)
              omega
            · intro b hb
              have := Nat.and_le_left (n := b) (m := 0x80 >>> (goUint32 x % 8) ^^^ 0xff)
              omega
            · intro b hh t ht himp
              simp only [Nat.testBit_land, Bool.and_eq_true]
              rintro ⟨hht, hmt⟩
              exact ⟨himp hht, hmt⟩
          · rw [if_neg h5] at h
            injection h with h
            subst h
            refine PlanesInv_setByte i _ _ _ hinv hn ?_ ?_ ?_
            · exact fun b hb => or_lt_256 b _ hb hbit256
            · exact fun b hb => or_lt_256 b _ hb hbit256
            · intro b hh t ht himp
              simp only [Nat.testBit_lor, Bool.or_eq_true]
              rintro (hht | hbt)
              · exact Or.inl (himp hht)
              · exact Or.inr hbt
      · rw [if_neg h3] at h
        exact absurd h (by simp)
    · rw [if_neg h2] at h
      injection h with h
      subst h
      exact hinv

lemma inv_reset (i : Image) (hinv : PlanesInv i) : PlanesInv i.reset := by
  obtain ⟨hlen, -, -⟩ := hinv
  refine ⟨by simp [Image.reset, hlen], ?_, ?_⟩
  · intro n hn
    simp only [Image.reset, List.length_replicate] at hn ⊢
    rw [getD_replicate _ _ _ hn, getD_replicate _ _ _ (hlen ▸ hn)]
    omega
  · intro n hn t ht hbit
    simp only [Image.reset, List.length_replicate] at hn hbit ⊢
    rw [getD_replicate _ _ _ (hlen ▸ hn)] at hbit
    simp [Nat.zero_testBit] at hbit

lemma inv_applyOp (i : Image) (op : Op) (j : Image)
    (hinv : PlanesInv i) (h : applyOp i op = some j) : PlanesInv j := by
  cases op with
  | set x y c => exact inv_setColorIndex i x y c.C j hinv h
  | setColorIndex x y index => exact inv_setColorIndex i x y index j hinv h
  | reset =>
    simp only [applyOp] at h
    injection h with h
    subst h
    exact inv_reset i hinv

lemma inv_runOps (ops : List Op) : ∀ (i j : Image),
    PlanesInv i → runOps i ops = some j → PlanesInv j := by
  induction ops with
  | nil =>
    intro i j hinv h
    rw [runOps] at h
    injection h with h
    subst h
    exact hinv
  | cons op rest ih =>
    intro i j hinv h
    rw [runOps] at h
    rcases hmid : applyOp i op with _ | mid
    · rw [hmid] at h
      exact absurd h (by simp)
    · rw [hmid] at h
      simp only [Option.some_bind] at h
      exact ih mid j (inv_applyOp i op mid hinv hmid) h


/-- Claim C7: for every framebuffer created by `NewImage` and every sequence
of `Set` (native color), `SetColorIndex` and `Reset` operations that runs
without a panic, both planes keep identical length and no pixel position
ever holds the bit pair (blackBit = 0, highlightBit = 1). -/
theorem claim_C7 (r : Rect) (ops : List Op) (i0 iF : Image)
    (h0 : newImage r = some i0) (hrun : runOps i0 ops = some iF) :
    iF.Black.length = iF.Highlight.length ∧
    ∀ n < iF.Black.length, ∀ t < 8,
      ¬((iF.Black.getD n 0).testBit t = false ∧ (iF.Highlight.getD n 0).testBit t = true) := by
  have hinv := inv_runOps ops i0 iF (inv_newImage r i0 h0) hrun
  obtain ⟨hlen, -, hp⟩ := hinv
  refine ⟨hlen, ?_⟩
  rintro n hn t ht ⟨hb, hh⟩
  rw [hp n hn t ht hh] at hb
  exact Bool.noConfusion hb

/-- Witness for C7: a concrete 16×2 framebuffer and a concrete operation
sequence mixing all three operations. -/
theorem claim_C7_witness :
    newImage ⟨0, 0, 16, 2⟩ =
      some (Image.mk [0xff, 0xff, 0xff, 0xff] [0, 0, 0, 0] ⟨0, 0, 16, 2⟩ 2) ∧
    runOps (Image.mk [0xff, 0xff, 0xff, 0xff] [0, 0, 0, 0] ⟨0, 0, 16, 2⟩ 2)
        [Op.set 0 0 Gink.Black, Op.setColorIndex 7 0 2, Op.reset, Op.set 3 1 Gink.White] =
      some (Image.mk [0xff, 0xff, 0xff, 0xff] [0, 0, 0, 0] ⟨0, 0, 16, 2⟩ 2) ∧
    ((Image.mk [0xff, 0xff, 0xff, 0xff] [0, 0, 0, 0] ⟨0, 0, 16, 2⟩ 2).Black.length =
        (Image.mk [0xff, 0xff, 0xff, 0xff] [0, 0, 0, 0] ⟨0, 0, 16, 2⟩ 2).Highlight.length ∧
      ∀ n < (Image.mk [0xff, 0xff, 0xff, 0xff] [0, 0, 0, 0] ⟨0, 0, 16, 2⟩ 2).Black.length,
        ∀ t < 8,
        ¬(((Image.mk [0xff, 0xff, 0xff, 0xff] [0, 0, 0, 0] ⟨0, 0, 16, 2⟩ 2).Black.getD n
              0).testBit t = false ∧
          ((Image.mk [0xff, 0xff, 0xff, 0xff] [0, 0, 0, 0] ⟨0, 0, 16, 2⟩ 2).Highlight.getD n
              0).testBit t = true)) :=
  ⟨by decide, by decide,
    claim_C7 ⟨0, 0, 16, 2⟩
      [Op.set 0 0 Gink.Black, Op.setColorIndex 7 0 2, Op.reset, Op.set 3 1 Gink.White]
      (Image.mk [0xff, 0xff, 0xff, 0xff] [0, 0, 0, 0] ⟨0, 0, 16, 2⟩ 2)
      (Image.mk [0xff, 0xff, 0xff, 0xff] [0, 0, 0, 0] ⟨0, 0, 16, 2⟩ 2)
      (by decide) (by decide)⟩


/-! ## Claims C4, C5, C8 — the transport writers -/

lemma dataWriterWrite_ok (limit : Int) (tc : Nat) (evs : List Ev) (c : List Nat)
    (hl : 0 < limit) (hc0 : c ≠ []) (hcl : (c.length : Int) ≤ limit) :
    dataWriterWrite ⟨limit, [], tc, evs⟩ c =
      (⟨limit, [], tc + 1, evs ++ dataBlock c⟩, c.length, none) := by
  rw [dataWriterWrite]
  rw [if_neg (by simpa using hc0)]
  rw [if_neg (by simp; omega)]
  rw [if_neg (by simp; omega)]
  simp [HW.doTx, HW.txOkAt, dataBlock, List.getD]

lemma batchedAux_step (bs : Int) (p : List Nat) (fuel : Nat) (h : HW) (i sent : Nat)
    (hi : i < p.length) :
    batchedWriteAux bs p (fuel + 1) h i sent =
      (match dataWriterWrite h ((p.drop i).take (min (i + bs.toNat) p.length - i)) with
       | (h1, n, some err) => some (h1, n + sent, some err)
       | (h1, _, none) => batchedWriteAux bs p fuel h1 (i + bs.toNat) sent) := by
  simp only [batchedWriteAux]
  rw [if_pos hi]

lemma batchedAux_exit (bs : Int) (p : List Nat) (fuel : Nat) (h : HW) (i sent : Nat)
    (hi : ¬ i < p.length) :
    batchedWriteAux bs p (fuel + 1) h i sent = some (h, sent, none) := by
  simp only [batchedWriteAux]
  rw [if_neg hi]

lemma batched_three (limit : Int) (p : List Nat) (tc : Nat) (evs : List Ev)
    (hl : 0 < limit) (hp : p.length = 2 * limit.toNat + 1) :
    batchedWrite ⟨limit, [], tc, evs⟩ p =
      some (⟨limit, [], tc + 3,
        evs ++ dataBlock (p.take limit.toNat)
            ++ dataBlock ((p.drop limit.toNat).take limit.toNat)
            ++ dataBlock (p.drop (2 * limit.toNat))⟩, 0, none) := by
  obtain ⟨K, hK⟩ : ∃ K, limit.toNat = K + 1 := ⟨limit.toNat - 1, by omega⟩
  rw [hK] at hp ⊢
  rw [batchedWrite]
  rw [show (⟨limit, [], tc, evs⟩ : HW).txLimit = limit from rfl]
  rw [hp]
  rw [show 2 * (K + 1) + 1 + 1 = (2 * K + 2) + 1 + 1 from by ring]
  -- iteration 1: i = 0
  rw [batchedAux_step _ _ _ _ _ _ (by omega)]
  rw [List.drop_zero, hK]
  rw [show min (0 + (K + 1)) p.length - 0 = K + 1 from by omega]
  rw [dataWriterWrite_ok _ _ _ _ hl
    (by intro hnil; have := congrArg List.length hnil; simp [hp] at this)
    (by simp [List.length_take]; omega)]
  dsimp only
  -- iteration 2: i = 0 + (K + 1)
  rw [batchedAux_step _ _ _ _ _ _ (by omega)]
  rw [hK]
  rw [show (0 + (K + 1)) = K + 1 from by ring]
  rw [show min (K + 1 + (K + 1)) p.length - (K + 1) = K + 1 from by omega]
  rw [dataWriterWrite_ok _ _ _ _ hl
    (by intro hnil; have := congrArg List.length hnil
        simp [List.length_take, List.length_drop, hp] at this
        omega)
    (by simp [List.length_take, List.length_drop, hp]; omega)]
  dsimp only
  -- iteration 3: i = K + 1 + (K + 1); reshape the fuel literal
  rw [show (2 : Nat) * K + 2 = (2 * K + 1) + 1 from by ring]
  rw [batchedAux_step _ _ _ _ _ _ (by omega)]
  rw [hK]
  rw [show min (K + 1 + (K + 1) + (K + 1)) p.length - (K + 1 + (K + 1)) = 1 from by omega]
  rw [dataWriterWrite_ok _ _ _ _ hl
    (by intro hnil; have := congrArg List.length hnil
        simp [List.length_take, List.length_drop, hp] at this
        omega)
    (by simp [List.length_take, List.length_drop, hp]; omega)]
  dsimp only
  -- exit: i = K + 1 + (K + 1) + (K + 1) ≥ p.length
  rw [batchedAux_exit _ _ _ _ _ _ (by omega)]
  rw [show (K + 1 + (K + 1)) = 2 * (K + 1) from by ring]
  rw [List.take_of_length_le
    (show (p.drop (2 * (K + 1))).length ≤ 1 by simp [List.length_drop, hp])]


lemma writeCommand_ok (limit : Int) (tc : Nat) (evs : List Ev) (cmd : Nat) :
    writeCommand ⟨limit, [], tc, evs⟩ cmd =
      (⟨limit, [], tc + 1, evs ++ cmdBlock cmd⟩, none) := by
  simp [writeCommand, HW.doTx, HW.txOkAt, cmdBlock, List.getD]

lemma lockCount_append (a b : List Ev) :
    lockCount (a ++ b) = lockCount a + lockCount b := by
  simp [lockCount, List.filter_append]

lemma lockCount_dataBlock (c : List Nat) : lockCount (dataBlock c) = 1 := rfl

lemma lockCount_cmdBlock (c : Nat) : lockCount (cmdBlock c) = 1 := rfl

/-- Claim C4: a payload of exactly `2 * limit + 1` bytes pushed through the
batched data path is split into exactly 3 sequential transport transfers —
the first two of exactly `limit` bytes, the third of 1 byte — whose
concatenation is the original payload, with no error. -/
theorem claim_C4 (limit : Int) (p : List Nat)
    (hl : 0 < limit) (hp : p.length = 2 * limit.toNat + 1) :
    (batchedWrite ⟨limit, [], 0, []⟩ p).map (fun r => r.1.txs.map List.length) =
      some [limit.toNat, limit.toNat, 1] ∧
    (batchedWrite ⟨limit, [], 0, []⟩ p).map (fun r => r.1.txs.flatten) = some p ∧
    (batchedWrite ⟨limit, [], 0, []⟩ p).map (fun r => r.2.2) = some none := by
  rw [batched_three limit p 0 [] hl hp]
  refine ⟨?_, ?_, rfl⟩
  · simp [HW.txs, dataBlock, List.length_take, List.length_drop, hp]
    omega
  · simp [HW.txs, dataBlock]
    rw [show 2 * limit.toNat = limit.toNat + limit.toNat from by ring]
    rw [← List.drop_drop]
    rw [List.take_append_drop, List.take_append_drop]

/-- Witness for C4 at `limit = 2` and the 5-byte payload `[9, 8, 7, 6, 5]`. -/
theorem claim_C4_witness :
    (0 : Int) < 2 ∧ ([9, 8, 7, 6, 5] : List Nat).length = 2 * (2 : Int).toNat + 1 ∧
    ((batchedWrite ⟨2, [], 0, []⟩ [9, 8, 7, 6, 5]).map (fun r => r.1.txs.map List.length) =
        some [(2 : Int).toNat, (2 : Int).toNat, 1] ∧
      (batchedWrite ⟨2, [], 0, []⟩ [9, 8, 7, 6, 5]).map (fun r => r.1.txs.flatten) =
        some [9, 8, 7, 6, 5] ∧
      (batchedWrite ⟨2, [], 0, []⟩ [9, 8, 7, 6, 5]).map (fun r => r.2.2) = some none) :=
  ⟨by decide, by decide, claim_C4 2 [9, 8, 7, 6, 5] (by decide) (by decide)⟩

/-- Claim C5 evaluated at the failing input: transfer limit 2, payload
`[1, 2, 3, 4, 5]`, with the second transport transfer scheduled to fail.
The first chunk `[1, 2]` is transmitted successfully (2 bytes), the second
chunk `[3, 4]` fails after reporting 2 bytes, and no further chunk is
attempted — but the writer returns 2, not the 4 bytes the claim (and the
intent of the `sent` accumulator) requires, because the loop body updates
the dead local `n` (`n += sent`) instead of `sent`. -/
theorem claim_C5_bug :
    (batchedWrite ⟨2, [true, false], 0, []⟩ [1, 2, 3, 4, 5]).map
        (fun r => (r.1.txs, r.2.1, r.2.2)) =
      some ([[1, 2], [3, 4]], 2, some GoErr.txErr) ∧ (2 : Nat) + 2 ≠ 2 := by
  refine ⟨by decide, by decide⟩

/-- Counterexample to claim C8 as stated: for the logical command with opcode
`0x24` and 3-byte payload `[1, 2, 3]` on a transport with transfer limit 2,
the bus activity does not happen under one single continuous lock
acquisition — the mutex is acquired 3 times (once for the opcode, once per
payload chunk), and the trace is the concatenation of 3 separate
lock…unlock blocks. -/
theorem claim_C8_counterexample :
    (commandWrite ⟨2, [], 0, []⟩ [0x24, 1, 2, 3]).map (fun r => lockCount r.1.events) =
      some 3 ∧ (3 : Nat) ≠ 1 := by
  refine ⟨by decide, by decide⟩

/-- Claim C8 (amended): each individual bus transfer of a logical command —
the opcode byte and every payload chunk — is protected by its own
acquisition and release of the mutex; the lock is not held across the whole
command.  For a command whose payload needs 3 chunks, the trace is exactly
one `cmdBlock` followed by 3 `dataBlock`s (each a lock…unlock section), so
the mutex is acquired `1 + 3` times. -/
theorem claim_C8 (limit : Int) (cmd : Nat) (data : List Nat)
    (hl : 0 < limit) (hd : data.length = 2 * limit.toNat + 1) :
    commandWrite ⟨limit, [], 0, []⟩ (cmd :: data) =
      some (⟨limit, [], 4,
        cmdBlock cmd ++ dataBlock (data.take limit.toNat)
          ++ dataBlock ((data.drop limit.toNat).take limit.toNat)
          ++ dataBlock (data.drop (2 * limit.toNat))⟩, 1, none) ∧
    lockCount (cmdBlock cmd ++ dataBlock (data.take limit.toNat)
        ++ dataBlock ((data.drop limit.toNat).take limit.toNat)
        ++ dataBlock (data.drop (2 * limit.toNat))) = 1 + 3 := by
  constructor
  · rw [commandWrite]
    rw [writeCommand_ok]
    dsimp only
    rw [if_neg (by omega)]
    rw [show (⟨limit, [], 0 + 1, [] ++ cmdBlock cmd⟩ : HW) = ⟨limit, [], 1, cmdBlock cmd⟩
      from by simp]
    rw [batched_three limit data 1 (cmdBlock cmd) hl hd]
  · simp [lockCount_append, lockCount_dataBlock, lockCount_cmdBlock]

/-- Witness for C8 (amended) at `limit = 2`, opcode `0x24`, payload
`[1, 2, 3, 4, 5]`. -/
theorem claim_C8_witness :
    (0 : Int) < 2 ∧ ([1, 2, 3, 4, 5] : List Nat).length = 2 * (2 : Int).toNat + 1 ∧
    (commandWrite ⟨2, [], 0, []⟩ (0x24 :: [1, 2, 3, 4, 5]) =
        some (⟨2, [], 4,
          cmdBlock 0x24 ++ dataBlock ([1, 2, 3, 4, 5].take (2 : Int).toNat)
            ++ dataBlock (([1, 2, 3, 4, 5].drop (2 : Int).toNat).take (2 : Int).toNat)
            ++ dataBlock ([1, 2, 3, 4, 5].drop (2 * (2 : Int).toNat))⟩, 1, none) ∧
      lockCount (cmdBlock 0x24 ++ dataBlock ([1, 2, 3, 4, 5].take (2 : Int).toNat)
          ++ dataBlock (([1, 2, 3, 4, 5].drop (2 : Int).toNat).take (2 : Int).toNat)
          ++ dataBlock ([1, 2, 3, 4, 5].drop (2 * (2 : Int).toNat))) = 1 + 3) :=
  ⟨by decide, by decide, claim_C8 2 0x24 [1, 2, 3, 4, 5] (by decide) (by decide)⟩


/-! ## Claim C6 — deterministic palette role assignment -/

lemma sqDiff_self (x : Nat) : sqDiff x x = 0 := by
  have hd : (x % 2 ^ 32 + 2 ^ 32 - x % 2 ^ 32) % 2 ^ 32 = 0 := by omega
  simp [sqDiff, hd]

lemma colorSum_self (a : RGBA) : colorSum a a = 0 := by
  simp [colorSum, sqDiff_self]

lemma paletteIndexAux_bound (c : RGBA) (l : List RGBA) :
    ∀ i ret best, paletteIndexAux c l i ret best < i + l.length ∨
      paletteIndexAux c l i ret best = ret := by
  induction l with
  | nil =>
    intro i ret best
    right
    rfl
  | cons v rest ih =>
    intro i ret best
    simp only [paletteIndexAux]
    split_ifs with h1 h2
    · left
      simp
    · rcases ih (i + 1) i (colorSum c v) with h | h
      · left
        simp only [List.length_cons]
        omega
      · left
        rw [h]
        simp
    · rcases ih (i + 1) ret best with h | h
      · left
        simp only [List.length_cons]
        omega
      · right
        exact h

lemma paletteIndex_lt (c : RGBA) (l : List RGBA) (hne : l ≠ []) :
    paletteIndex l c < l.length := by
  rcases paletteIndexAux_bound c l 0 0 (2 ^ 32 - 1) with h | h
  · rw [paletteIndex]
    omega
  · rw [paletteIndex, h]
    cases l with
    | nil => exact absurd rfl hne
    | cons a rest => simp

lemma paletteIndex_one (a b : RGBA) : paletteIndex [a] b = 0 := by
  rw [paletteIndex]
  simp only [paletteIndexAux]
  split_ifs <;> rfl

lemma paletteIndex_three_0 (a b c : RGBA) : paletteIndex [a, b, c] a = 0 := by
  rw [paletteIndex]
  simp only [paletteIndexAux, colorSum_self]
  split_ifs <;> first | rfl | (exfalso; omega)

lemma paletteIndex_three_1 (a b c : RGBA) (h : colorSum b a ≠ 0) :
    paletteIndex [a, b, c] b = 1 := by
  rw [paletteIndex]
  simp only [paletteIndexAux, colorSum_self]
  split_ifs <;> first | rfl | (exfalso; omega)

lemma paletteIndex_three_2 (a b c : RGBA) (h1 : colorSum c a ≠ 0) (h2 : colorSum c b ≠ 0) :
    paletteIndex [a, b, c] c = 2 := by
  rw [paletteIndex]
  simp only [paletteIndexAux, colorSum_self]
  split_ifs <;> first | rfl | (exfalso; omega)


/-- Claim C6: for every 3-entry palette whose entries are pairwise at nonzero
distance (in the uint32 squared-distance metric of `color.Palette.Index`),
`exactColorIndex` assigns the physical roles by iterative nearest-match
removal in the fixed priority order White, Black, Highlight — i.e. it
computes exactly the index triple of the spec's removal process
`specNearestRemovalAssign`. -/
theorem claim_C6 (pal : List RGBA) (hlen : pal.length = 3)
    (hpw : List.Pairwise (fun u v => colorSum u v ≠ 0 ∧ colorSum v u ≠ 0) pal) :
    exactColorIndex pal = specNearestRemovalAssign pal := by
  obtain ⟨a, b, c, rfl⟩ := List.length_eq_three.mp hlen
  simp only [List.pairwise_cons, List.mem_cons, List.not_mem_nil, or_false] at hpw
  obtain ⟨hab2, hbc2, -⟩ := hpw
  have hab : colorSum a b ≠ 0 ∧ colorSum b a ≠ 0 := hab2 b (Or.inl rfl)
  have hac : colorSum a c ≠ 0 ∧ colorSum c a ≠ 0 := hab2 c (Or.inr rfl)
  have hbc : colorSum b c ≠ 0 ∧ colorSum c b ≠ 0 := hbc2 c rfl
  simp only [exactColorIndex, specNearestRemovalAssign, List.length_cons, List.length_nil]
  simp only [show List.range (0 + 1 + 1 + 1) = [0, 1, 2] from rfl,
    show List.map (fun k => [a, b, c].getD k default) [0, 1, 2] = [a, b, c] from rfl]
  have hw3 : paletteIndex [a, b, c] goWhite < 3 := by
    simpa using paletteIndex_lt goWhite [a, b, c] (by simp)
  have hwcases : paletteIndex [a, b, c] goWhite = 0 ∨ paletteIndex [a, b, c] goWhite = 1 ∨
      paletteIndex [a, b, c] goWhite = 2 := by omega
  rcases hwcases with hw | hw | hw
  · -- White claims entry 0 (a); remaining entries [b, c]
    simp only [hw, show [a, b, c].eraseIdx 0 = [b, c] from rfl,
      show ([0, 1, 2] : List Nat).getD 0 0 = 0 from rfl,
      show ([0, 1, 2] : List Nat).erase 0 = [1, 2] from rfl,
      show List.map (fun k => [a, b, c].getD k default) [1, 2] = [b, c] from rfl,
      show [a, b, c].getD 0 default = a from rfl]
    have h2 : paletteIndex [b, c] goBlack < 2 := by
      simpa using paletteIndex_lt goBlack [b, c] (by simp)
    have h2cases : paletteIndex [b, c] goBlack = 0 ∨ paletteIndex [b, c] goBlack = 1 := by omega
    rcases h2cases with h2 | h2
    · -- Black claims b; Highlight gets c
      simp only [h2, show [b, c].eraseIdx 0 = [c] from rfl,
        show ([1, 2] : List Nat).getD 0 0 = 1 from rfl,
        show ([1, 2] : List Nat).erase 1 = [2] from rfl,
        show List.map (fun k => [a, b, c].getD k default) [2] = [c] from rfl,
        show [b, c].getD 0 default = b from rfl, paletteIndex_one,
        show [c].getD 0 default = c from rfl,
        show ([2] : List Nat).getD 0 0 = 2 from rfl]
      rw [paletteIndex_three_0, paletteIndex_three_1 _ _ _ hab.2,
        paletteIndex_three_2 _ _ _ hac.2 hbc.2]
    · -- Black claims c; Highlight gets b
      simp only [h2, show [b, c].eraseIdx 1 = [b] from rfl,
        show ([1, 2] : List Nat).getD 1 0 = 2 from rfl,
        show ([1, 2] : List Nat).erase 2 = [1] from rfl,
        show List.map (fun k => [a, b, c].getD k default) [1] = [b] from rfl,
        show [b, c].getD 1 default = c from rfl, paletteIndex_one,
        show [b].getD 0 default = b from rfl,
        show ([1] : List Nat).getD 0 0 = 1 from rfl]
      rw [paletteIndex_three_0, paletteIndex_three_2 _ _ _ hac.2 hbc.2,
        paletteIndex_three_1 _ _ _ hab.2]
  · -- White claims entry 1 (b); remaining entries [a, c]
    simp only [hw, show [a, b, c].eraseIdx 1 = [a, c] from rfl,
      show ([0, 1, 2] : List Nat).getD 1 0 = 1 from rfl,
      show ([0, 1, 2] : List Nat).erase 1 = [0, 2] from rfl,
      show List.map (fun k => [a, b, c].getD k default) [0, 2] = [a, c] from rfl,
      show [a, b, c].getD 1 default = b from rfl]
    have h2 : paletteIndex [a, c] goBlack < 2 := by
      simpa using paletteIndex_lt goBlack [a, c] (by simp)
    have h2cases : paletteIndex [a, c] goBlack = 0 ∨ paletteIndex [a, c] goBlack = 1 := by omega
    rcases h2cases with h2 | h2
    · -- Black claims a; Highlight gets c
      simp only [h2, show [a, c].eraseIdx 0 = [c] from rfl,
        show ([0, 2] : List Nat).getD 0 0 = 0 from rfl,
        show ([0, 2] : List Nat).erase 0 = [2] from rfl,
        show List.map (fun k => [a, b, c].getD k default) [2] = [c] from rfl,
        show [a, c].getD 0 default = a from rfl, paletteIndex_one,
        show [c].getD 0 default = c from rfl,
        show ([2] : List Nat).getD 0 0 = 2 from rfl]
      rw [paletteIndex_three_1 _ _ _ hab.2, paletteIndex_three_0,
        paletteIndex_three_2 _ _ _ hac.2 hbc.2]
    · -- Black claims c; Highlight gets a
      simp only [h2, show [a, c].eraseIdx 1 = [a] from rfl,
        show ([0, 2] : List Nat).getD 1 0 = 2 from rfl,
        show ([0, 2] : List Nat).erase 2 = [0] from rfl,
        show List.map (fun k => [a, b, c].getD k default) [0] = [a] from rfl,
        show [a, c].getD 1 default = c from rfl, paletteIndex_one,
        show [a].getD 0 default = a from rfl,
        show ([0] : List Nat).getD 0 0 = 0 from rfl]
      rw [paletteIndex_three_1 _ _ _ hab.2, paletteIndex_three_2 _ _ _ hac.2 hbc.2,
        paletteIndex_three_0]
  · -- White claims entry 2 (c); remaining entries [a, b]
    simp only [hw, show [a, b, c].eraseIdx 2 = [a, b] from rfl,
      show ([0, 1, 2] : List Nat).getD 2 0 = 2 from rfl,
      show ([0, 1, 2] : List Nat).erase 2 = [0, 1] from rfl,
      show List.map (fun k => [a, b, c].getD k default) [0, 1] = [a, b] from rfl,
      show [a, b, c].getD 2 default = c from rfl]
    have h2 : paletteIndex [a, b] goBlack < 2 := by
      simpa using paletteIndex_lt goBlack [a, b] (by simp)
    have h2cases : paletteIndex [a, b] goBlack = 0 ∨ paletteIndex [a, b] goBlack = 1 := by omega
    rcases h2cases with h2 | h2
    · -- Black claims a; Highlight gets b
      simp only [h2, show [a, b].eraseIdx 0 = [b] from rfl,
        show ([0, 1] : List Nat).getD 0 0 = 0 from rfl,
        show ([0, 1] : List Nat).erase 0 = [1] from rfl,
        show List.map (fun k => [a, b, c].getD k default) [1] = [b] from rfl,
        show [a, b].getD 0 default = a from rfl, paletteIndex_one,
        show [b].getD 0 default = b from rfl,
        show ([1] : List Nat).getD 0 0 = 1 from rfl]
      rw [paletteIndex_three_2 _ _ _ hac.2 hbc.2, paletteIndex_three_0,
        paletteIndex_three_1 _ _ _ hab.2]
    · -- Black claims b; Highlight gets a
      simp only [h2, show [a, b].eraseIdx 1 = [a] from rfl,
        show ([0, 1] : List Nat).getD 1 0 = 1 from rfl,
        show ([0, 1] : List Nat).erase 1 = [0] from rfl,
        show List.map (fun k => [a, b, c].getD k default) [0] = [a] from rfl,
        show [a, b].getD 1 default = b from rfl, paletteIndex_one,
        show [a].getD 0 default = a from rfl,
        show ([0] : List Nat).getD 0 0 = 0 from rfl]
      rw [paletteIndex_three_2 _ _ _ hac.2 hbc.2, paletteIndex_three_1 _ _ _ hab.2,
        paletteIndex_three_0]


/-- Witness for C6 at the claim's scenario: a palette containing a
desaturated red (255FF,200,200 scaled to 16-bit: closer to pure white than
to pure red), pure white and pure black.  White still binds to the white
entry (index 1) and the desaturated red binds to Highlight (index 0) only
after White and Black are claimed. -/
theorem claim_C6_witness :
    ([⟨0xffff, 51400, 51400, 0xffff⟩, goWhite, goBlack] : List RGBA).length = 3 ∧
    List.Pairwise (fun u v => colorSum u v ≠ 0 ∧ colorSum v u ≠ 0)
      ([⟨0xffff, 51400, 51400, 0xffff⟩, goWhite, goBlack] : List RGBA) ∧
    exactColorIndex [⟨0xffff, 51400, 51400, 0xffff⟩, goWhite, goBlack] =
      specNearestRemovalAssign [⟨0xffff, 51400, 51400, 0xffff⟩, goWhite, goBlack] ∧
    exactColorIndex [⟨0xffff, 51400, 51400, 0xffff⟩, goWhite, goBlack] = (1, 2, 0) ∧
    colorSum ⟨0xffff, 51400, 51400, 0xffff⟩ goWhite <
      colorSum ⟨0xffff, 51400, 51400, 0xffff⟩ goRed :=
  ⟨by decide, by decide,
    claim_C6 [⟨0xffff, 51400, 51400, 0xffff⟩, goWhite, goBlack] (by decide) (by decide),
    by decide, by decide⟩

end Gink
